import Mathlib

/-!
Verification of the retrieve-then-generate pipeline helpers in the
milvus-io/bootcamp notebooks:
  - `tutorials/integration/evaluation_with_ragas.ipynb` (class `RAG`)
  - `RAG/advanced_rag/hyde_with_langchain.ipynb`
    (`retrieve_documents`, `generate_rag_response`, `load_processed_files`)
  - `RAG/advanced_rag/hybrid_and_rerank_with_langchain.ipynb`
    (hybrid merge + reranker configuration)
  - `RAG/zilliz_pipeline_rag_advanced.ipynb`
    (`SearchPipeline.run`, `MilvusDocChatbot`, ingestion)

The notebooks delegate embedding, nearest-neighbour search, reranking and
completion to external services.  Those collaborators are modelled here as
explicit parameters (an embedding function `String → List Int`, a completion
function `ChatRequest → String`, a relevance-scoring function) or, where the
spec describes their interface, as executable model functions over integer
score vectors.  The notebook helper code itself is translated directly.
-/

/-- Score-descending comparison on scored items: `scoreGE a b` holds when the
score of `a` is at least the score of `b`.  Used to model result ordering of
the vector-database search and of the reranker (highest score first). -/
def scoreGE {α : Type} (a b : α × Int) : Prop := b.2 ≤ a.2

instance {α : Type} : DecidableRel (@scoreGE α) := fun a b => Int.decLe b.2 a.2

instance {α : Type} : IsTotal (α × Int) scoreGE := ⟨fun a b => le_total b.2 a.2⟩

instance {α : Type} : IsTrans (α × Int) scoreGE := ⟨fun _ _ _ h1 h2 => le_trans h2 h1⟩

/-- Sort a scored list so that higher scores come first. -/
def sortByScoreDesc {α : Type} (l : List (α × Int)) : List (α × Int) :=
  l.insertionSort scoreGE

/-- An entity stored in a Milvus collection: primary key `id`, embedding
`vector`, and the chunk `text`, as inserted by the notebooks. -/
structure Entity where
  id : Nat
  vector : List Int
  text : String
deriving DecidableEq

/-- Inner-product similarity between two embedding vectors (the notebooks use
metric type IP or COSINE; both rank higher scores as more similar). -/
def ipScore (v w : List Int) : Int := (List.zipWith (fun a b => a * b) v w).sum

/-- Modelled from the spec: the external vector-database similarity search
(`MilvusClient.search`, not part of this repository) —  "similarity search
with optional scalar filter expression …, returning nearest neighbors with
distance scores": it scores every stored entity against the query vector and
returns at most `limit` results, highest similarity first. -/
def milvus_search (coll : List Entity) (queryVec : List Int) (limit : Nat) :
    List (Entity × Int) :=
  (sortByScoreDesc (coll.map (fun e => (e, ipScore e.vector queryVec)))).take limit

/-- One message of a chat-completion request. -/
structure ChatMessage where
  role : String
  content : String
deriving DecidableEq

/-- A chat-completion API request as issued by the notebooks: a model name, an
optional explicit temperature (`none` when the call omits the argument and the
client default applies), and the message list. -/
structure ChatRequest where
  model : String
  temperature : Option Int
  messages : List ChatMessage
deriving DecidableEq

namespace RAG

/-- `RAG.SYSTEM_PROMPT` from `evaluation_with_ragas.ipynb`. -/
def SYSTEM_PROMPT : String :=
  "\nHuman: You are an AI assistant. You are able to find answers to the questions from the contextual passage snippets provided.\n"

/-- `RAG.USER_PROMPT.format(context=…, question=…)` from
`evaluation_with_ragas.ipynb`: the fixed user-prompt template applied to a
context block and the question. -/
def USER_PROMPT (context question : String) : String :=
  "\nUse the following pieces of information enclosed in <context> tags to provide an answer to the question enclosed in <question> tags.\n<context>\n"
    ++ context
    ++ "\n</context>\n<question>\n"
    ++ question
    ++ "\n</question>\n"

/-- `RAG.retrieve` from `evaluation_with_ragas.ipynb`: embed the question,
search the collection with `limit=top_k`, project out the text field and take
the first `top_k` texts.  `emb` models `self._emb_text` (the external
embedding API), `coll` the data held by the collection `rag_collection`. -/
def retrieve (emb : String → List Int) (coll : List Entity) (question : String)
    (top_k : Nat) : List String :=
  let search_res := milvus_search coll (emb question) top_k
  let retrieved_texts := search_res.map (fun res => res.1.text)
  retrieved_texts.take top_k

/-- The two possible return shapes of `RAG.answer`: the generated answer
alone, or the answer paired with the retrieved texts. -/
inductive AnswerResult where
  | answerOnly (content : String)
  | withRetrieved (content : String) (texts : List String)
deriving DecidableEq

/-- `RAG.answer` from `evaluation_with_ragas.ipynb`: retrieve, format the
fixed user prompt from the joined retrieved texts and the question, call the
chat-completion API (model `gpt-3.5-turbo`, no explicit temperature), and
return either the content alone or the content with the retrieved texts.
`complete` models `openai_client.chat.completions.create` followed by the
`.choices[0].message.content` projection. -/
def answer (emb : String → List Int) (complete : ChatRequest → String)
    (coll : List Entity) (question : String) (retrieval_top_k : Nat)
    (return_retrieved_text : Bool) : AnswerResult :=
  let retrieved_texts := retrieve emb coll question retrieval_top_k
  let user_prompt := USER_PROMPT (String.intercalate "\n" retrieved_texts) question
  let response := complete
    { model := "gpt-3.5-turbo", temperature := none,
      messages := [{ role := "system", content := SYSTEM_PROMPT },
                   { role := "user", content := user_prompt }] }
  if return_retrieved_text then AnswerResult.withRetrieved response retrieved_texts
  else AnswerResult.answerOnly response

end RAG

/-- The fixed chat request assembled by `RAG.answer`: system prompt plus the
user-prompt template applied to the joined retrieved texts and the question,
sent to model `gpt-3.5-turbo` with no explicit temperature. -/
def ragFixedRequest (emb : String → List Int) (coll : List Entity)
    (question : String) (retrieval_top_k : Nat) : ChatRequest :=
  { model := "gpt-3.5-turbo", temperature := none,
    messages := [{ role := "system", content := RAG.SYSTEM_PROMPT },
                 { role := "user", content := RAG.USER_PROMPT
                    (String.intercalate "\n" (RAG.retrieve emb coll question retrieval_top_k))
                    question }] }

/-- Metadata describing one Milvus collection, as created by
`RAG._prepare_milvus`: probed embedding dimension, metric type, consistency
level, and the rows it currently holds. -/
structure CollectionInfo where
  dimension : Nat
  metric_type : String
  consistency_level : String
  rows : List Entity
deriving DecidableEq

/-- The state of a Milvus instance: its named collections. -/
structure MilvusState where
  collections : List (String × CollectionInfo)
deriving DecidableEq

/-- `milvus_client.has_collection`. -/
def has_collection (st : MilvusState) (name : String) : Bool :=
  st.collections.any (fun c => c.1 == name)

/-- `milvus_client.drop_collection`: remove the collection of that name. -/
def drop_collection (st : MilvusState) (name : String) : MilvusState :=
  ⟨st.collections.filter (fun c => c.1 != name)⟩

/-- `milvus_client.create_collection`: add a fresh, empty collection with the
given dimension, metric type and consistency level. -/
def create_collection (st : MilvusState) (name : String) (dimension : Nat)
    (metric_type consistency_level : String) : MilvusState :=
  ⟨(name, ⟨dimension, metric_type, consistency_level, []⟩) :: st.collections⟩

/-- Look up a collection by name. -/
def get_collection (st : MilvusState) (name : String) : Option CollectionInfo :=
  (st.collections.find? (fun c => c.1 == name)).map (fun c => c.2)

namespace RAG

/-- `RAG._prepare_milvus` from `evaluation_with_ragas.ipynb`, invoked by
`RAG.__init__` with the default collection name `rag_collection`: if the
collection exists it is dropped, then a fresh collection is created with the
probed embedding dimension `len(self._emb_text("foo"))`, metric type IP and
consistency level Strong. -/
def prepare_milvus (emb : String → List Int) (st : MilvusState) : MilvusState :=
  let st1 := if has_collection st "rag_collection" then drop_collection st "rag_collection" else st
  let embedding_dim := (emb "foo").length
  create_collection st1 "rag_collection" embedding_dim "IP" "Strong"

end RAG

/-- `retrieve_documents` from `hyde_with_langchain.ipynb`: embed the question,
search with `limit=top_k`, and return the (text, distance) pairs of the
results. -/
def retrieve_documents (emb : String → List Int) (coll : List Entity)
    (question : String) (top_k : Nat) : List (String × Int) :=
  let search_res := milvus_search coll (emb question) top_k
  search_res.map (fun res => (res.1.text, res.2))

/-- The system prompt of `generate_rag_response` in `hyde_with_langchain.ipynb`. -/
def hydeSystemPrompt : String :=
  "You are an AI assistant. Provide answers based on the given context."

/-- The user-prompt f-string template of `generate_rag_response` in
`hyde_with_langchain.ipynb`, applied to the context block and the question. -/
def hydeUserPrompt (context question : String) : String :=
  "\n    Use the following pieces of information to answer the question. If the information is not in the context, say you don't know.\n    \n    Context:\n    "
    ++ context
    ++ "\n    \n    Question: "
    ++ question
    ++ "\n    "

/-- `generate_rag_response` from `hyde_with_langchain.ipynb`: retrieve with
the default `top_k=3`, join the retrieved texts into a context block, and call
the chat-completion API with model `gpt-4o-mini` and no explicit temperature,
returning the completion content. -/
def generate_rag_response (emb : String → List Int) (complete : ChatRequest → String)
    (coll : List Entity) (question : String) : String :=
  let retrieved_docs := retrieve_documents emb coll question 3
  let context := String.intercalate "\n" (retrieved_docs.map (fun doc => "Text: " ++ doc.1 ++ "\n"))
  complete
    { model := "gpt-4o-mini", temperature := none,
      messages := [{ role := "system", content := hydeSystemPrompt },
                   { role := "user", content := hydeUserPrompt context question }] }

/-- The fixed chat request assembled by `generate_rag_response`. -/
def hydeFixedRequest (emb : String → List Int) (coll : List Entity)
    (question : String) : ChatRequest :=
  { model := "gpt-4o-mini", temperature := none,
    messages := [{ role := "system", content := hydeSystemPrompt },
                 { role := "user", content := hydeUserPrompt
                    (String.intercalate "\n"
                      ((retrieve_documents emb coll question 3).map
                        (fun doc => "Text: " ++ doc.1 ++ "\n")))
                    question }] }

/-- The Python `str.endswith` test, computed on the character lists. -/
def endswith (s post : String) : Bool := post.data.isSuffixOf s.data

/-- `load_processed_files` from `hyde_with_langchain.ipynb`.  The directory is
a list of file names; `elements_from_json` models the external JSON reader,
returning either the parsed elements or an IOError.  The function returns the
accumulated elements together with the list of printed error messages: one
message `Error: Could not read file {filename}.` per caught IOError (the
source catches `IOError`, prints, and continues with the next file). -/
def load_processed_files (elements_from_json : String → Except Unit (List String)) :
    List String → List String × List String
  | [] => ([], [])
  | filename :: rest =>
    let tail := load_processed_files elements_from_json rest
    if endswith filename ".json" then
      match elements_from_json filename with
      | Except.ok es => (es ++ tail.1, tail.2)
      | Except.error _ => (tail.1, ("Error: Could not read file " ++ filename ++ ".") :: tail.2)
    else tail

/-- The `.json` files of a directory listing, in order. -/
def json_files (dir : List String) : List String :=
  dir.filter (fun f => endswith f ".json")

/-- Whether the external JSON reader fails with an IOError on a file. -/
def isIOError (e : Except Unit (List String)) : Bool :=
  match e with
  | Except.ok _ => false
  | Except.error _ => true

/-- The elements of all successfully read `.json` files of a directory, in
order. -/
def ok_elements (elements_from_json : String → Except Unit (List String))
    (dir : List String) : List String :=
  ((json_files dir).map (fun f =>
    match elements_from_json f with
    | Except.ok es => es
    | Except.error _ => [])).flatten

/-- One printed error message per `.json` file whose read fails, in order. -/
def caught_messages (elements_from_json : String → Except Unit (List String))
    (dir : List String) : List String :=
  ((json_files dir).filter (fun f => isIOError (elements_from_json f))).map
    (fun f => "Error: Could not read file " ++ f ++ ".")

/-- A document chunk stored by the Zilliz ingestion pipeline in
`zilliz_pipeline_rag_advanced.ipynb`: the collection `my_rag_collection` holds
`doc_name`, `chunk_id`, `chunk_text`, `embedding` (INDEX_DOC) and the
preserved `version` tag (PRESERVE). -/
structure PChunk where
  doc_name : String
  chunk_id : Nat
  chunk_text : String
  embedding : List Int
  version : String
deriving DecidableEq

/-- One record returned by a search-pipeline run with
`other_output_fields=[version]`: the chunk text and its version tag (no
relevance score field), matching the captured output of the notebook. -/
structure SearchRecord where
  chunk_text : String
  version : String
deriving DecidableEq

namespace SearchPipeline

/-- Modelled from the spec: `pipeline_utils.SearchPipeline.run` is repository
code not present under src (only the notebook that imports it is).  Per the
spec, the search pipeline converts the query into an embedding, applies the
scalar filter expression `version == "…"` over chunk metadata, and retrieves
the top-K nearest-neighbour chunks, returned with the requested output fields
(chunk text and version). -/
def run (coll : List PChunk) (emb : String → List Int) (question : String)
    (top_k : Nat) (filterVersion : String) : List SearchRecord :=
  let matching := coll.filter (fun c => c.version == filterVersion)
  let ranked := sortByScoreDesc (matching.map (fun c => (c, ipScore c.embedding (emb question))))
  (ranked.take top_k).map (fun res => { chunk_text := res.1.chunk_text, version := res.1.version })

end SearchPipeline

namespace MilvusDocChatbot

/-- `MilvusDocChatbot.retrieve` from `zilliz_pipeline_rag_advanced.ipynb`:
run the search pipeline with `top_k=2`, `other_output_fields=[version]` and
the filter `version == "{milvus_version}"`. -/
def retrieve (coll : List PChunk) (emb : String → List Int) (query : String)
    (milvus_version : String) : List SearchRecord :=
  SearchPipeline.run coll emb query 2 milvus_version

/-- `MilvusDocChatbot.generate_answer` from
`zilliz_pipeline_rag_advanced.ipynb`: one user message assembled from the
fixed template around the context string and the question, sent to model
`gpt-3.5-turbo` with temperature 0; returns the completion content. -/
def generate_answer (complete : ChatRequest → String) (query : String)
    (context_str : String) : String :=
  complete
    { model := "gpt-3.5-turbo", temperature := some 0,
      messages := [{ role := "user", content :=
        "We have provided context information below. \n---------------------\n"
          ++ context_str
          ++ "\n---------------------\nGiven this information, please answer the question: "
          ++ query }] }

end MilvusDocChatbot

/-- The fixed chat request assembled by `MilvusDocChatbot.generate_answer`. -/
def chatbotFixedRequest (query context_str : String) : ChatRequest :=
  { model := "gpt-3.5-turbo", temperature := some 0,
    messages := [{ role := "user", content :=
      "We have provided context information below. \n---------------------\n"
        ++ context_str
        ++ "\n---------------------\nGiven this information, please answer the question: "
        ++ query }] }

/-- Modelled from the spec: `rag_utils/hybrid_and_rerank.py`
(`RerankerRunnable`) is repository code not present under src (only the
notebook that imports it is).  Per the spec, the hybrid retriever merges the
result sets of the two retrievers by concatenation and deduplicates by identity;
the captured output of the notebook names the merged list `unique_documents`. -/
def unique_documents (milvus_retrieved_doc bm25_retrieved_doc : List String) :
    List String :=
  (milvus_retrieved_doc ++ bm25_retrieved_doc).dedup

/-- Modelled from the spec: the reranker contract — given the candidate
texts, return the top-K reordered by the relevance judgment computed by the
external reranking service (modelled by the scoring function `relevance`). -/
def rerank (relevance : String → Int) (top_k : Nat) (documents : List String) :
    List String :=
  ((sortByScoreDesc (documents.map (fun d => (d, relevance d)))).take top_k).map Prod.fst

namespace RerankerRunnable

/-- Modelled from the spec: `RerankerRunnable.invoke` — deduplicate the union
of the dense and sparse result sets, then delegate to the reranker with the
configured `top_k`. -/
def invoke (relevance : String → Int) (top_k : Nat)
    (milvus_retrieved_doc bm25_retrieved_doc : List String) : List String :=
  rerank relevance top_k (unique_documents milvus_retrieved_doc bm25_retrieved_doc)

end RerankerRunnable

/-- Errors of the ingestion model. -/
inductive IngestError where
  | collectionExists
  | keyCollision
deriving DecidableEq

/-- A source document as handed to the ingestion pipeline: its name and the
chunks the external chunker produces from it. -/
structure IngestDoc where
  doc_name : String
  chunks : List String
deriving DecidableEq

/-- The rows of the ingestion collection, keyed by the primary-key scheme
(document name, chunk id). -/
structure IngestCollection where
  rows : List ((String × Nat) × String)
deriving DecidableEq

/-- Whether a row with the given primary key is present. -/
def hasKey (rows : List ((String × Nat) × String)) (key : String × Nat) : Bool :=
  rows.any (fun r => decide (r.1 = key))

/-- Modelled from the spec: inserting one row into the collection under the
primary-key scheme — a key collision is a well-defined conflict, never a
silent second row under the same key. -/
def insertRow (rows : List ((String × Nat) × String)) (key : String × Nat)
    (chunk_text : String) : Except IngestError (List ((String × Nat) × String)) :=
  if hasKey rows key then Except.error IngestError.keyCollision
  else Except.ok (rows ++ [(key, chunk_text)])

/-- Insert the chunks of a document one after the other, numbering them from
`i`, stopping at the first conflict. -/
def insertChunks (rows : List ((String × Nat) × String)) (doc_name : String)
    (i : Nat) : List String → Except IngestError (List ((String × Nat) × String))
  | [] => Except.ok rows
  | c :: cs =>
    match insertRow rows (doc_name, i) c with
    | Except.error e => Except.error e
    | Except.ok rows1 => insertChunks rows1 doc_name (i + 1) cs

namespace IngestionPipeline

/-- Modelled from the spec: `pipeline_utils.IngestionPipeline.run` and the
hosted ingestion service are not present under src (only the notebook that
calls them is).  Per the spec, an ingestion run chunks the document and
inserts the chunks into the collection under the (document, chunk) primary-key
scheme; a duplicate key is a well-defined conflict. -/
def run (st : IngestCollection) (doc : IngestDoc) : Except IngestError IngestCollection :=
  (insertChunks st.rows doc.doc_name 0 doc.chunks).map IngestCollection.mk

end IngestionPipeline

/-- Demonstration collection with one version-2.2 chunk and one version-2.3
chunk, mirroring the two ingested document versions of the notebook. -/
def demoPColl : List PChunk :=
  [⟨"milvus_doc_22.md", 0, "chunk22", [1], "2.2"⟩,
   ⟨"milvus_doc.md", 0, "chunk23", [2], "2.3"⟩]

/-- A concrete embedding function for witnesses. -/
def demoEmb : String → List Int := fun _ => [1]

/-- A two-entity collection whose entities score 2 and 1 against `demoEmb`. -/
def collA : List Entity := [⟨0, [2], "alpha"⟩, ⟨1, [1], "beta"⟩]

/-- The same texts as `collA` but with a different vector for `alpha`, so the
relevance scores differ while the descending text order is unchanged. -/
def collB : List Entity := [⟨0, [4], "alpha"⟩, ⟨1, [1], "beta"⟩]

/-- A directory listing with two JSON files for the `load_processed_files`
counterexample. -/
def demoDir : List String := ["a.json", "b.json"]

/-- A JSON reader that fails with an IOError on `a.json` and succeeds on any
other file. -/
def demo_elements_from_json : String → Except Unit (List String) :=
  fun filename => if filename = "a.json" then Except.error () else Except.ok ["element1"]

/-- Four dense-retriever results, two of which overlap with the sparse set. -/
def demoMilvusDocs : List String := ["dense1", "dense2", "overlap1", "overlap2"]

/-- Four sparse-retriever results, two of which overlap with the dense set. -/
def demoBM25Docs : List String := ["overlap1", "overlap2", "sparse1", "sparse2"]

/-! ## Helper lemmas -/

/-- Sorting by descending score yields a score-descending list. -/
theorem sortByScoreDesc_sorted {α : Type} (l : List (α × Int)) :
    List.Pairwise scoreGE (sortByScoreDesc l) :=
  List.sorted_insertionSort scoreGE l

/-- Membership is preserved by the descending sort. -/
theorem mem_sortByScoreDesc {α : Type} {x : α × Int} {l : List (α × Int)} :
    x ∈ sortByScoreDesc l ↔ x ∈ l :=
  List.mem_insertionSort scoreGE

/-- The descending sort preserves length. -/
theorem length_sortByScoreDesc {α : Type} (l : List (α × Int)) :
    (sortByScoreDesc l).length = l.length :=
  List.length_insertionSort scoreGE l

/-- Every record returned by a filtered search-pipeline run carries exactly
the version demanded by the filter expression. -/
theorem version_of_mem_run {coll : List PChunk} {emb : String → List Int}
    {question : String} {top_k : Nat} {filterVersion : String} {r : SearchRecord}
    (hr : r ∈ SearchPipeline.run coll emb question top_k filterVersion) :
    r.version = filterVersion := by
  unfold SearchPipeline.run at hr
  obtain ⟨p, hp, hpr⟩ := List.mem_map.mp hr
  have hp1 : p ∈ sortByScoreDesc (((coll.filter (fun c => c.version == filterVersion))).map
      (fun c => (c, ipScore c.embedding (emb question)))) := List.mem_of_mem_take hp
  have hp2 := mem_sortByScoreDesc.mp hp1
  obtain ⟨c, hc, hcp⟩ := List.mem_map.mp hp2
  have hcv : (c.version == filterVersion) = true := (List.mem_filter.mp hc).2
  subst hpr
  subst hcp
  simpa using hcv

/-! ## Claim theorems -/

/-- Claim C1: for every question string and every result-count bound `top_k`,
the retrieval operation returns at most `top_k` results — `RAG.retrieve`
returns a list of length at most `top_k`, and `retrieve_documents` returns at
most `top_k` (text, distance) pairs. -/
theorem retrieval_length_le_top_k :
    ∀ (emb : String → List Int) (coll : List Entity) (question : String) (top_k : Nat),
      (RAG.retrieve emb coll question top_k).length ≤ top_k ∧
      (retrieve_documents emb coll question top_k).length ≤ top_k := by
  intro emb coll question top_k
  constructor
  · unfold RAG.retrieve
    exact List.length_take_le top_k _
  · unfold retrieve_documents milvus_search
    simp only [List.length_map]
    exact List.length_take_le top_k _

/-- Claim C3: the candidate set the hybrid retriever hands to the reranker is
exactly the deduplicated union of the dense (Milvus) and sparse (BM25) result
sets — its elements are the union of the elements of the two inputs and it holds no
duplicates — and 4 dense results plus 4 sparse results overlapping in 2
documents yield 6 unique candidates, matching the observed notebook output
`len(unique_documents) = 6`. -/
theorem hybrid_candidates_dedup_union :
    (∀ (milvus_retrieved_doc bm25_retrieved_doc : List String),
        (unique_documents milvus_retrieved_doc bm25_retrieved_doc).toFinset =
          milvus_retrieved_doc.toFinset ∪ bm25_retrieved_doc.toFinset ∧
        (unique_documents milvus_retrieved_doc bm25_retrieved_doc).Nodup) ∧
    demoMilvusDocs.length = 4 ∧ demoBM25Docs.length = 4 ∧
    (demoMilvusDocs.inter demoBM25Docs).length = 2 ∧
    (unique_documents demoMilvusDocs demoBM25Docs).length = 6 := by
  refine ⟨fun m b => ⟨?_, List.nodup_dedup _⟩, by decide, by decide, by decide, by decide⟩
  unfold unique_documents
  ext x
  simp [List.mem_dedup]

/-- Claim C8: every generator call assembles its prompt from its fixed
template (context block plus question) and calls the completion API with an
input-independent model choice and temperature setting, returning the plain
completion text: `MilvusDocChatbot.generate_answer` uses `gpt-3.5-turbo` at
temperature 0, `RAG.answer` uses `gpt-3.5-turbo` with no explicit temperature,
and `generate_rag_response` uses `gpt-4o-mini` with no explicit temperature. -/
theorem generators_fixed_template :
    ∀ (complete : ChatRequest → String) (emb : String → List Int) (coll : List Entity)
      (question context_str : String) (retrieval_top_k : Nat),
      (MilvusDocChatbot.generate_answer complete question context_str =
          complete (chatbotFixedRequest question context_str) ∧
        (chatbotFixedRequest question context_str).model = "gpt-3.5-turbo" ∧
        (chatbotFixedRequest question context_str).temperature = some 0) ∧
      (RAG.answer emb complete coll question retrieval_top_k false =
          RAG.AnswerResult.answerOnly (complete (ragFixedRequest emb coll question retrieval_top_k)) ∧
        (ragFixedRequest emb coll question retrieval_top_k).model = "gpt-3.5-turbo" ∧
        (ragFixedRequest emb coll question retrieval_top_k).temperature = none) ∧
      (generate_rag_response emb complete coll question =
          complete (hydeFixedRequest emb coll question) ∧
        (hydeFixedRequest emb coll question).model = "gpt-4o-mini" ∧
        (hydeFixedRequest emb coll question).temperature = none) :=
  fun _ _ _ _ _ _ => ⟨⟨rfl, rfl, rfl⟩, ⟨rfl, rfl, rfl⟩, ⟨rfl, rfl, rfl⟩⟩

/-- Claim C10: `RAG.answer` with `return_retrieved_text=True` returns the
generated answer paired with exactly `RAG.retrieve(question, retrieval_top_k)`,
and with `return_retrieved_text=False` it returns only the generated answer;
in both cases the answer is the completion of the same fixed request built
from the same retrieved texts. -/
theorem answer_returns_retrieved_texts :
    ∀ (emb : String → List Int) (complete : ChatRequest → String) (coll : List Entity)
      (question : String) (retrieval_top_k : Nat),
      RAG.answer emb complete coll question retrieval_top_k true =
        RAG.AnswerResult.withRetrieved
          (complete (ragFixedRequest emb coll question retrieval_top_k))
          (RAG.retrieve emb coll question retrieval_top_k) ∧
      RAG.answer emb complete coll question retrieval_top_k false =
        RAG.AnswerResult.answerOnly
          (complete (ragFixedRequest emb coll question retrieval_top_k)) :=
  fun _ _ _ _ _ => ⟨rfl, rfl⟩

/-- Claim C9: constructing a RAG object always leaves the Milvus collection
`rag_collection` existing and empty: after `RAG._prepare_milvus` (invoked by
`RAG.__init__`) the state holds exactly one collection named
`rag_collection`, freshly created with the probed embedding dimension
`len(_emb_text("foo"))`, inner-product metric and strong consistency, with no
rows — regardless of the prior state. -/
theorem prepare_milvus_fresh_collection :
    ∀ (emb : String → List Int) (st : MilvusState),
      get_collection (RAG.prepare_milvus emb st) "rag_collection" =
        some ⟨(emb "foo").length, "IP", "Strong", []⟩ ∧
      (RAG.prepare_milvus emb st).collections.filter (fun c => c.1 == "rag_collection") =
        [("rag_collection", ⟨(emb "foo").length, "IP", "Strong", []⟩)] := by
  intro emb st
  have h1 : ∀ l : List (String × CollectionInfo),
      (l.filter (fun c => c.1 != "rag_collection")).filter
        (fun c => c.1 == "rag_collection") = [] := by
    intro l
    rw [List.filter_eq_nil_iff]
    intro a ha
    have : (a.1 != "rag_collection") = true := (List.mem_filter.mp ha).2
    simp at this
    simp [this]
  have h2 : has_collection st "rag_collection" = false →
      st.collections.filter (fun c => c.1 == "rag_collection") = [] := by
    intro hfalse
    rw [List.filter_eq_nil_iff]
    intro a ha
    have := List.any_eq_false.mp hfalse a ha
    simpa using this
  cases hhas : has_collection st "rag_collection" with
  | true =>
      constructor
      · simp [RAG.prepare_milvus, hhas, create_collection, get_collection]
      · simp only [RAG.prepare_milvus, hhas, if_true, create_collection, drop_collection,
          List.filter_cons]
        simp [h1]
  | false =>
      constructor
      · simp [RAG.prepare_milvus, hhas, create_collection, get_collection]
      · simp only [RAG.prepare_milvus, hhas, if_false, create_collection, List.filter_cons]
        simp [h2 hhas]

/-- Claim C2: for every query, a search run with the metadata filter
`version == "2.2"` returns only chunks whose version field is `"2.2"` (never a
chunk tagged `"2.3"`), a run with `version == "2.3"` returns only `"2.3"`
chunks (never `"2.2"`), and generally `MilvusDocChatbot.retrieve` returns only
chunks of the requested version. -/
theorem filtered_search_version_only :
    ∀ (coll : List PChunk) (emb : String → List Int) (question : String) (top_k : Nat),
      (∀ r, r ∈ SearchPipeline.run coll emb question top_k "2.2" →
        r.version = "2.2" ∧ r.version ≠ "2.3") ∧
      (∀ r, r ∈ SearchPipeline.run coll emb question top_k "2.3" →
        r.version = "2.3" ∧ r.version ≠ "2.2") ∧
      (∀ (milvus_version : String) r,
        r ∈ MilvusDocChatbot.retrieve coll emb question milvus_version →
          r.version = milvus_version) := by
  intro coll emb question top_k
  refine ⟨fun r hr => ?_, fun r hr => ?_, fun v r hr => version_of_mem_run hr⟩
  · have h := version_of_mem_run hr
    exact ⟨h, by rw [h]; decide⟩
  · have h := version_of_mem_run hr
    exact ⟨h, by rw [h]; decide⟩

/-- Witness for C2: on the demonstration collection holding one `"2.2"` chunk
and one `"2.3"` chunk, a concrete record returned by the `version == "2.2"`
run has version `"2.2"` and not `"2.3"`. -/
theorem filtered_search_version_only_witness :
    ((⟨"chunk22", "2.2"⟩ : SearchRecord) ∈ SearchPipeline.run demoPColl demoEmb "q" 2 "2.2") ∧
    (⟨"chunk22", "2.2"⟩ : SearchRecord).version = "2.2" ∧
    (⟨"chunk22", "2.2"⟩ : SearchRecord).version ≠ "2.3" :=
  ⟨by decide,
   (filtered_search_version_only demoPColl demoEmb "q" 2).1 ⟨"chunk22", "2.2"⟩ (by decide)⟩

/-- Claim C4: for every query (relevance judgment) and every input candidate
set, the reranker output is a permutation-with-truncation of its input: every
text it returns was present in the input candidate set, and the output length
is at most the requested `top_k`. -/
theorem rerank_subset_and_bounded :
    ∀ (relevance : String → Int) (top_k : Nat) (documents : List String),
      (rerank relevance top_k documents).length ≤ top_k ∧
      ∀ t, t ∈ rerank relevance top_k documents → t ∈ documents := by
  intro relevance top_k documents
  constructor
  · unfold rerank
    simp only [List.length_map]
    exact List.length_take_le top_k _
  · intro t ht
    unfold rerank at ht
    obtain ⟨p, hp, hpt⟩ := List.mem_map.mp ht
    have hp1 := mem_sortByScoreDesc.mp (List.mem_of_mem_take hp)
    obtain ⟨d, hd, hdp⟩ := List.mem_map.mp hp1
    subst hpt
    subst hdp
    exact hd

/-- Witness for C4: with the configured `top_k = 4` of the notebook, a concrete
reranked text came from the input candidate set, and the output length is
bounded by 4. -/
theorem rerank_subset_and_bounded_witness :
    ("ccc" ∈ rerank (fun s => Int.ofNat s.length) 4 ["aa", "b", "ccc"]) ∧
    ("ccc" ∈ (["aa", "b", "ccc"] : List String)) ∧
    (rerank (fun s => Int.ofNat s.length) 4 ["aa", "b", "ccc"]).length ≤ 4 :=
  ⟨by decide,
   (rerank_subset_and_bounded (fun s => Int.ofNat s.length) 4 ["aa", "b", "ccc"]).2
     "ccc" (by decide),
   (rerank_subset_and_bounded (fun s => Int.ofNat s.length) 4 ["aa", "b", "ccc"]).1⟩

/-- A row inserted by `insertChunks` never removes an existing primary key. -/
theorem hasKey_append_self (rows : List ((String × Nat) × String)) (key : String × Nat)
    (t : String) : hasKey (rows ++ [(key, t)]) key = true := by
  unfold hasKey
  simp [List.any_append]

/-- Keys present before a successful chunk insertion remain present after. -/
theorem hasKey_insertChunks {rows rows1 : List ((String × Nat) × String)}
    {doc_name : String} {i : Nat} {cs : List String} {key : String × Nat}
    (h : insertChunks rows doc_name i cs = Except.ok rows1)
    (hkey : hasKey rows key = true) : hasKey rows1 key = true := by
  induction cs generalizing rows i with
  | nil =>
      unfold insertChunks at h
      cases h
      exact hkey
  | cons c cs ih =>
      unfold insertChunks insertRow at h
      cases hk : hasKey rows (doc_name, i) with
      | true => simp [hk] at h
      | false =>
          simp only [hk, Bool.false_eq_true, if_false] at h
          refine ih h ?_
          unfold hasKey at hkey ⊢
          simp [List.any_append, hkey]

/-- After a successful insertion of a non-empty chunk list starting at index
`i`, the key of the first chunk is present. -/
theorem hasKey_of_insertChunks_head {rows rows1 : List ((String × Nat) × String)}
    {doc_name : String} {i : Nat} {c : String} {cs : List String}
    (h : insertChunks rows doc_name i (c :: cs) = Except.ok rows1) :
    hasKey rows1 (doc_name, i) = true := by
  unfold insertChunks insertRow at h
  cases hk : hasKey rows (doc_name, i) with
  | true => simp [hk] at h
  | false =>
      simp only [hk, Bool.false_eq_true, if_false] at h
      exact hasKey_insertChunks h (hasKey_append_self rows (doc_name, i) c)

/-- Claim C6: ingesting the same document twice under the same primary-key
scheme produces a well-defined conflict — the second run fails with a
key-collision error instead of silently duplicating the chunks of the document in
the collection. -/
theorem double_ingest_key_collision :
    ∀ (st : IngestCollection) (doc : IngestDoc) (st1 : IngestCollection),
      doc.chunks ≠ [] →
      IngestionPipeline.run st doc = Except.ok st1 →
      IngestionPipeline.run st1 doc = Except.error IngestError.keyCollision := by
  intro st doc st1 hne hok
  obtain ⟨c, cs, hchunks⟩ : ∃ c cs, doc.chunks = c :: cs := by
    cases hcs : doc.chunks with
    | nil => exact absurd hcs hne
    | cons c cs => exact ⟨c, cs, rfl⟩
  unfold IngestionPipeline.run at hok ⊢
  rw [hchunks] at hok ⊢
  cases hic : insertChunks st.rows doc.doc_name 0 (c :: cs) with
  | error e => rw [hic] at hok; simp [Except.map] at hok
  | ok rows1 =>
      rw [hic] at hok
      simp only [Except.map] at hok
      cases hok
      have hkey : hasKey rows1 (doc.doc_name, 0) = true := hasKey_of_insertChunks_head hic
      unfold insertChunks insertRow
      simp [hkey, Except.map]

/-- Witness for C6: ingesting a one-chunk document into an empty collection
succeeds, and ingesting it a second time fails with a key collision. -/
theorem double_ingest_key_collision_witness :
    (⟨"milvus_doc_22.md", ["chunk-a"]⟩ : IngestDoc).chunks ≠ [] ∧
    IngestionPipeline.run ⟨[]⟩ ⟨"milvus_doc_22.md", ["chunk-a"]⟩ =
      Except.ok ⟨[(("milvus_doc_22.md", 0), "chunk-a")]⟩ ∧
    IngestionPipeline.run ⟨[(("milvus_doc_22.md", 0), "chunk-a")]⟩
        ⟨"milvus_doc_22.md", ["chunk-a"]⟩ =
      Except.error IngestError.keyCollision :=
  ⟨by simp, by rfl,
   double_ingest_key_collision ⟨[]⟩ ⟨"milvus_doc_22.md", ["chunk-a"]⟩
     ⟨[(("milvus_doc_22.md", 0), "chunk-a")]⟩ (by simp) (by rfl)⟩

/-- Claim C5 counterexample: the claim says every retrieval operation returns
(chunk text, relevance score) pairs, but `RAG.retrieve` returns bare texts
with no scores: two collections that assign different relevance scores to the
same texts produce different (text, score) sequences, yet `RAG.retrieve`
returns the identical bare text list for both, so its result cannot carry the
relevance scores. -/
theorem retrieve_drops_scores_counterexample :
    retrieve_documents demoEmb collA "q" 2 = [("alpha", 2), ("beta", 1)] ∧
    retrieve_documents demoEmb collB "q" 2 = [("alpha", 4), ("beta", 1)] ∧
    retrieve_documents demoEmb collA "q" 2 ≠ retrieve_documents demoEmb collB "q" 2 ∧
    RAG.retrieve demoEmb collA "q" 2 = RAG.retrieve demoEmb collB "q" 2 ∧
    RAG.retrieve demoEmb collA "q" 2 = ["alpha", "beta"] :=
  ⟨by decide, by decide, by decide, by decide, by decide⟩

/-- Claim C5 (amended): `retrieve_documents` returns an ordered sequence of
(chunk text, relevance score) pairs ordered by descending score, and
`RAG.retrieve` returns exactly the text components of that descending-ordered
scored sequence, without the scores. -/
theorem retrieval_scored_desc_amended :
    ∀ (emb : String → List Int) (coll : List Entity) (question : String) (top_k : Nat),
      List.Pairwise scoreGE (retrieve_documents emb coll question top_k) ∧
      RAG.retrieve emb coll question top_k =
        (retrieve_documents emb coll question top_k).map Prod.fst := by
  intro emb coll question top_k
  constructor
  · unfold retrieve_documents
    rw [List.pairwise_map]
    have hs : List.Pairwise scoreGE (milvus_search coll (emb question) top_k) :=
      List.Pairwise.sublist (List.take_sublist _ _) (sortByScoreDesc_sorted _)
    exact hs.imp (fun h => h)
  · unfold RAG.retrieve retrieve_documents
    rw [List.map_map]
    apply List.take_of_length_le
    rw [List.length_map]
    unfold milvus_search
    exact List.length_take_le _ _

/-- Claim C7 counterexample: the claim says no code in any notebook catches
or recovers from an exception, but `load_processed_files` in the HyDE
notebook catches `IOError`: on a directory where reading `a.json` raises an
IOError, it prints an error message for that file and still returns the
elements of the remaining file instead of halting. -/
theorem load_processed_files_catches_counterexample :
    load_processed_files demo_elements_from_json demoDir =
      (["element1"], ["Error: Could not read file a.json."]) ∧
    (load_processed_files demo_elements_from_json demoDir).2 ≠ [] :=
  ⟨by decide, by decide⟩

/-- Claim C7 (amended): every failure propagates as the exception of the
underlying client and halts the cell, except that `load_processed_files` in the HyDE
notebook catches `IOError` per `.json` file: it prints one
`Error: Could not read file {filename}.` message per failing file and
continues, returning the elements of all successfully read `.json` files. -/
theorem load_processed_files_recovery_amended :
    ∀ (elements_from_json : String → Except Unit (List String)) (dir : List String),
      load_processed_files elements_from_json dir =
        (ok_elements elements_from_json dir, caught_messages elements_from_json dir) := by
  intro elements_from_json dir
  induction dir with
  | nil => rfl
  | cons f fs ih =>
      cases hend : endswith f ".json" with
      | false =>
          simp [load_processed_files, ok_elements, caught_messages, json_files,
            List.filter_cons, hend, ih]
      | true =>
          cases hej : elements_from_json f with
          | ok es =>
              simp [load_processed_files, ok_elements, caught_messages, json_files,
                List.filter_cons, hend, hej, isIOError, ih]
          | error e =>
              simp [load_processed_files, ok_elements, caught_messages, json_files,
                List.filter_cons, hend, hej, isIOError, ih]
